import Mathlib

/-!
Verification of the codecrafters-sqlite-rust repository (`src/main.rs`)
against its natural-language specification.

The source is shallowly embedded: the database file and byte streams are
`List Nat` (each entry one byte, `< 256`); machine-integer arithmetic is
`Nat` with explicit `% 2 ^ w` where wrap-around matters; fallible Rust code
returning `Result` becomes `Except`; a Rust process abort (an assertion
failure or an explicit panic, which never returns a value to the caller) is
modelled as the distinguished outcome `Failure.abort`, kept separate from
tagged error values `Failure.err`.
-/

namespace SQLiteRs

/-- Mirrors `SerialTypeError` of `src/main.rs`. -/
inductive SerialTypeError where
  | BadSerialNumber : Nat → SerialTypeError
deriving DecidableEq

/-- Mirrors `SQLiteInternalError` of `src/main.rs` (the payload-free shape of
the variants that the embedded code paths can produce). -/
inductive SQLiteInternalError where
  | SeekError
  | ReadError
  | VarIntConversionFail
  | InvalidUTF8
  | FoundBadObjectType
  | SerialTypeErr : SerialTypeError → SQLiteInternalError
deriving DecidableEq

/-- Outcome of a fallible operation of the Rust program: either a tagged
error value returned to the caller (Rust `Err(...)`), or a process abort
(a failed assertion or an explicit panic), which never returns control to
the caller. The distinction is load-bearing: several spec sentences say a
condition is reported as an error value rather than aborting the process. -/
inductive Failure where
  | err : SQLiteInternalError → Failure
  | abort : Failure
deriving DecidableEq

/-- Loop body of `parse_varint` (src/main.rs lines 441-464), translated
line by line. State: `bytes` is the unread byte stream from the current
offset, `varint_total` the u64 accumulator, `varint_byte_idx` the index of
the current varint byte. Per iteration the Rust code first asserts
`varint_byte_idx < 9` (modelled as `Failure.abort`), reads one byte
(read failure is `ReadError`), computes `msb = byte > 128`, sets
`varint_total = (varint_total << 7) + byte` in u64 arithmetic, returns
`(varint_total, varint_byte_idx + 1)` when `msb` is false, and otherwise
subtracts `0x80` and continues. -/
def parse_varint_loop (bytes : List Nat) (varint_total varint_byte_idx : Nat) :
    Except Failure (Nat × Nat) :=
  if 9 ≤ varint_byte_idx then .error .abort
  else
    match bytes with
    | [] => .error (.err .ReadError)
    | b :: rest =>
      let total2 := (varint_total * 128 + b) % 2 ^ 64
      if 128 < b then parse_varint_loop rest (total2 - 128) (varint_byte_idx + 1)
      else .ok (total2, varint_byte_idx + 1)

/-- `parse_varint` of src/main.rs: decodes a varint from the byte stream
starting at the given offset (the stream itself is the argument here; the
seek/BufReader plumbing carries no logic), returning the decoded value and
the number of bytes consumed. -/
def parse_varint (bytes : List Nat) : Except Failure (Nat × Nat) :=
  parse_varint_loop bytes 0 0

/-- Decoder following the specification's words (spec section 4.1), used
only to compare the implementation against the specified behaviour: for
bytes 1-8 the continuation bit is the high bit (`128 ≤ b`); when set, the
low 7 bits contribute and reading continues; when clear this is the final
byte and its low 7 bits are folded in. The 9th byte, if reached,
contributes all 8 bits and terminates with encoded length 9. -/
def decode_varint_spec_loop (bytes : List Nat) (total idx : Nat) : Option (Nat × Nat) :=
  match bytes with
  | [] => none
  | b :: rest =>
    if idx = 8 then some (total * 256 + b, 9)
    else if 128 ≤ b then decode_varint_spec_loop rest (total * 128 + b % 128) (idx + 1)
    else some (total * 128 + b, idx + 1)

/-- Top-level spec-side varint decoder (spec section 4.1). -/
def decode_varint_spec (bytes : List Nat) : Option (Nat × Nat) :=
  decode_varint_spec_loop bytes 0 0

/-- `serial_type_2_byte_length` of src/main.rs (lines 474-484), translated
arm by arm: Rust `0..5` is `serial_type < 5`, `rem_euclid(2)` on u64 is
`% 2`. -/
def serial_type_2_byte_length (serial_type : Nat) : Except SerialTypeError Nat :=
  if serial_type < 5 then .ok serial_type
  else if serial_type = 5 then .ok 6
  else if serial_type = 6 ∨ serial_type = 7 then .ok 8
  else if serial_type = 8 ∨ serial_type = 9 then .ok 0
  else if 12 ≤ serial_type ∧ serial_type % 2 = 0 then .ok ((serial_type - 12) / 2)
  else if 13 ≤ serial_type ∧ serial_type % 2 = 1 then .ok ((serial_type - 13) / 2)
  else .error (.BadSerialNumber serial_type)

/-- The serial-type byte-length table as the specification states it
(spec section 4.2), `none` standing for the reserved codes that must fail:
0→0, 1→1, 2→2, 3→3, 4→4, 5→6, 6→8, 7→8, 8→0, 9→0, 10 and 11 reserved,
even n≥12 → (n−12)/2, odd n≥13 → (n−13)/2. -/
def spec_serial_byte_length (n : Nat) : Option Nat :=
  if n = 0 then some 0
  else if n = 1 then some 1
  else if n = 2 then some 2
  else if n = 3 then some 3
  else if n = 4 then some 4
  else if n = 5 then some 6
  else if n = 6 then some 8
  else if n = 7 then some 8
  else if n = 8 then some 0
  else if n = 9 then some 0
  else if n = 10 ∨ n = 11 then none
  else if 12 ≤ n ∧ n % 2 = 0 then some ((n - 12) / 2)
  else if 13 ≤ n ∧ n % 2 = 1 then some ((n - 13) / 2)
  else none

/-- The serial-type reading loop of `parse_sql_schema_table_cell`
(src/main.rs lines 323-338), translated iteration by iteration. State:
`bytes` is the unread byte stream at the current offset,
`header_read_size` the running count of record-header bytes consumed
(initialised by the caller to the header-length varint's own size),
`header_size` the declared header length, `col_idx` the write index into
the fixed five-element array `columns_serial_types`. While
`header_read_size < header_size` the Rust code asserts
`col_idx < columns_serial_types.len()` — i.e. `col_idx < 5`, modelled as
`Failure.abort` when it fails — then parses one serial-type varint,
stores it, and advances `offset`, `header_read_size` and `col_idx` by the
varint's size. The extra `fuel` argument only bounds the recursion; the
top-level entry passes `header_size - header_read_size`, which is enough
because every parsed varint consumes at least one header byte, so the
fuel-exhaustion branch is unreachable. -/
def read_st_loop : Nat → List Nat → Nat → Nat → Nat → Except Failure (List Nat)
  | 0, _, header_read_size, header_size, _ =>
    if header_read_size < header_size then .error (.err .ReadError) else .ok []
  | fuel + 1, bytes, header_read_size, header_size, col_idx =>
    if header_read_size < header_size then
      if 5 ≤ col_idx then .error .abort
      else
        match parse_varint bytes with
        | .error e => .error e
        | .ok (serial_type, varint_size) =>
          match read_st_loop fuel (bytes.drop varint_size) (header_read_size + varint_size)
              header_size (col_idx + 1) with
          | .error e => .error e
          | .ok rest => .ok (serial_type :: rest)
    else .ok []

/-- The same loop with the five-element capacity assertion removed: it
reads serial-type varints until the running byte count reaches the header
length, with no bound on how many serial types are read. This is the
reference against which the capacity-capped loop is compared. -/
def read_st_loop_nocap : Nat → List Nat → Nat → Nat → Except Failure (List Nat)
  | 0, _, header_read_size, header_size =>
    if header_read_size < header_size then .error (.err .ReadError) else .ok []
  | fuel + 1, bytes, header_read_size, header_size =>
    if header_read_size < header_size then
      match parse_varint bytes with
      | .error e => .error e
      | .ok (serial_type, varint_size) =>
        match read_st_loop_nocap fuel (bytes.drop varint_size)
            (header_read_size + varint_size) header_size with
        | .error e => .error e
        | .ok rest => .ok (serial_type :: rest)
    else .ok []

/-- The serial-type loop as entered by `parse_sql_schema_table_cell`. -/
def read_serial_types (bytes : List Nat) (header_read_size header_size col_idx : Nat) :
    Except Failure (List Nat) :=
  read_st_loop (header_size - header_read_size) bytes header_read_size header_size col_idx

/-- The capacity-free serial-type loop at the same entry point. -/
def read_serial_types_nocap (bytes : List Nat) (header_read_size header_size : Nat) :
    Except Failure (List Nat) :=
  read_st_loop_nocap (header_size - header_read_size) bytes header_read_size header_size

/-- Record-header decoding as done by `parse_sql_schema_table_cell`
(src/main.rs lines 320-338): read the header-length varint, then enter the
serial-type loop with the byte count initialised to that varint's own size
and `col_idx = 0`. -/
def parse_record_serial_types (bytes : List Nat) : Except Failure (List Nat) :=
  match parse_varint bytes with
  | .error e => .error e
  | .ok (header_size, header_size_varint) =>
    read_serial_types (bytes.drop header_size_varint) header_size_varint header_size 0

/-- Mirrors `ObjectType` of src/main.rs. -/
inductive ObjectType where
  | Table
  | Index
  | View
  | Trigger
deriving DecidableEq

/-- Mirrors `SchemaTableRow` of src/main.rs. In the source `root_page` has
type `u8` (it is decoded from exactly one payload byte), so it is always
below 256. -/
structure SchemaTableRow where
  object_type : ObjectType
  name : String
  tbl_name : String
  root_page : Nat
  sql : String
deriving DecidableEq

/-- The table lookup of `handle_sql_query` (src/main.rs lines 152-155):
`table_rows.iter().find(|r| r.tbl_name == target)` followed by
`unwrap_or_else` with an explicit panic, modelled as `Failure.abort`,
when no row matches. -/
def find_target_table (table_rows : List SchemaTableRow) (target_tbl_name : String) :
    Except Failure SchemaTableRow :=
  match table_rows.find? (fun r => r.tbl_name == target_tbl_name) with
  | some r => .ok r
  | none => .error .abort

/-- The page-offset computation of `handle_sql_query` (src/main.rs line
167): `page_size * (target_table_row.root_page - 1) as u16`. `root_page`
is a `u8`, so `root_page - 1` wraps modulo 256 (modelled as
`(root_page + 255) % 256`), and the product is taken in `u16`, i.e.
modulo 65536 (release-profile wrapping; the debug profile aborts on the
same overflow — either way the exact product is lost). -/
def table_page_offset (page_size root_page : Nat) : Nat :=
  (page_size * ((root_page + 255) % 256)) % 65536

/-- Rust `read_exact` into a buffer of `n` bytes at a given absolute
offset of the database file (the seek that precedes it carries no logic):
returns the `n` bytes, or a `ReadError` if the file is too short. -/
def read_exact (file : List Nat) (offset n : Nat) : Except Failure (List Nat) :=
  if offset + n ≤ file.length then .ok ((file.drop offset).take n)
  else .error (.err .ReadError)

/-- `u16::from_be_bytes` applied to a two-byte buffer. -/
def u16_from_be_list (bs : List Nat) : Nat :=
  256 * bs.getD 0 0 + bs.getD 1 0

/-- The `SQLQuery::CountRows` arm of `handle_sql_query` (src/main.rs lines
143-179) after the schema table has been parsed: look up the target table
in the parsed schema rows (panicking — `Failure.abort` — when absent),
read the 2-byte big-endian page size at file offset 16, seek to
`page_size * (root_page - 1) as u16`, read the 8-byte page header there,
and return the 2-byte big-endian integer at header offsets 3 and 4 (the
cell count). -/
def count_rows (file : List Nat) (table_rows : List SchemaTableRow)
    (target_tbl_name : String) : Except Failure Nat :=
  match find_target_table table_rows target_tbl_name with
  | .error e => .error e
  | .ok target_table_row =>
    match read_exact file 16 2 with
    | .error e => .error e
    | .ok page_size_be_bytes =>
      let page_size := u16_from_be_list page_size_be_bytes
      let offset := table_page_offset page_size target_table_row.root_page
      match read_exact file offset 8 with
      | .error e => .error e
      | .ok table_header_bytes =>
        .ok (256 * table_header_bytes.getD 3 0 + table_header_bytes.getD 4 0)

/-- The `.tables` output construction of `main` (src/main.rs lines 60-71):
the loop appends each of the first `len - 1` names followed by a space,
then the name at index `len - 1` is appended. When the name list is empty,
`table_names.len() - 1` underflows and the slice/index operation aborts
the process (`Failure.abort`); no output is produced. -/
def tables_output (table_names : List String) : Except Failure String :=
  match table_names with
  | [] => .error .abort
  | _ :: _ =>
    let init := (table_names.take (table_names.length - 1)).foldl
      (fun acc tbl_name => acc ++ tbl_name ++ " ") ""
    .ok (init ++ table_names.getD (table_names.length - 1) "")

/-- A schema row resolving table "apples" to root page 17, used to
exercise the 16-bit page-offset arithmetic on a resolvable name. -/
def apples_row_17 : SchemaTableRow :=
  ⟨ObjectType.Table, "apples", "apples", 17, "CREATE TABLE apples (id integer primary key)"⟩

/-- An 18-byte database file whose page-size field (bytes 16-17) reads
4096 and whose first page header holds cell-count bytes 0 and 7 at
offsets 3 and 4. -/
def file_ps4096 : List Nat :=
  [0, 0, 0, 0, 7, 0, 0, 0, 0, 0, 0, 0, 0, 0, 0, 0, 16, 0]

/-- C1: the claim says a byte is treated as a continuation byte exactly when
its high bit (0x80) is set. The code's continuation test is `byte > 128`, so
the byte 0x80 itself — high bit set, low 7 bits zero — is treated as the
final byte and its full value 128 is folded in: on input [0x80, 0x01] the
decoder returns value 128 with length 1, while the specified behaviour
(spec-side decoder) continues past 0x80 and returns value 1 with length 2. -/
theorem c1_high_bit_0x80_not_continuation :
    parse_varint [128, 1] = .ok (128, 1) ∧ decode_varint_spec [128, 1] = some (1, 2) :=
  ⟨rfl, rfl⟩

/-- C2: the claim says a varint whose first 8 bytes have the high bit set
has its 9th byte folded in with all 8 bits. The code has no 9th-byte
special case: on the 9-byte input [0x81 ×8, 0x7F] it folds the 9th byte
with the same shift-by-7 rule, returning 567382630219905·128 + 127,
while the specified behaviour returns 567382630219905·256 + 127; the two
disagree, so length-9 round-trips cannot hold. -/
theorem c2_ninth_byte_folded_with_7_bit_rule :
    (parse_varint (List.replicate 8 129 ++ [127])).toOption
        = some (567382630219905 * 128 + 127, 9)
    ∧ decode_varint_spec (List.replicate 8 129 ++ [127])
        = some (567382630219905 * 256 + 127, 9)
    ∧ (567382630219905 * 128 + 127 : Nat) ≠ 567382630219905 * 256 + 127 :=
  ⟨rfl, rfl, by decide⟩

/-- C3: the claim says that after 9 bytes without termination the decoder
returns a MalformedVarint tagged error and never aborts the process. The
code instead aborts via the assertion `varint_byte_idx < 9`: on nine bytes
0xFF the result is the process-abort outcome, not a tagged error value
(the code has no MalformedVarint variant at all). -/
theorem c3_nine_bytes_abort_not_error :
    parse_varint (List.replicate 9 255) = .error .abort := rfl

/-- C4: for every serial-type code, `serial_type_2_byte_length` returns
exactly the byte length of the specification's table, and returns an error
exactly where the table reserves the code (10 and 11). -/
theorem c4_serial_type_table_exact :
    ∀ n, (serial_type_2_byte_length n).toOption = spec_serial_byte_length n := by
  intro n
  rcases Nat.lt_or_ge n 14 with h | h
  · interval_cases n <;> rfl
  · have hsmall : ¬ n < 5 := by omega
    have hne : ∀ k : Nat, k < 12 → ¬ n = k := fun k hk he => by omega
    have h67 : ¬ (n = 6 ∨ n = 7) := by omega
    have h89 : ¬ (n = 8 ∨ n = 9) := by omega
    have h1011 : ¬ (n = 10 ∨ n = 11) := by omega
    unfold serial_type_2_byte_length spec_serial_byte_length
    rw [if_neg hsmall, if_neg (hne 5 (by omega)), if_neg h67, if_neg h89,
      if_neg (hne 0 (by omega)), if_neg (hne 1 (by omega)), if_neg (hne 2 (by omega)),
      if_neg (hne 3 (by omega)), if_neg (hne 4 (by omega)), if_neg (hne 5 (by omega)),
      if_neg (hne 6 (by omega)), if_neg (hne 7 (by omega)), if_neg (hne 8 (by omega)),
      if_neg (hne 9 (by omega)), if_neg h1011]
    by_cases hp : n % 2 = 0
    · have hev : 12 ≤ n ∧ n % 2 = 0 := ⟨by omega, hp⟩
      rw [if_pos hev, if_pos hev]
      rfl
    · have hp1 : n % 2 = 1 := by omega
      have hnev : ¬ (12 ≤ n ∧ n % 2 = 0) := fun hc => hp hc.2
      have hodd : 13 ≤ n ∧ n % 2 = 1 := ⟨by omega, hp1⟩
      rw [if_neg hnev, if_neg hnev, if_pos hodd, if_pos hodd]
      rfl

/-- Once the byte count has reached the header length, the serial-type
loop stops immediately, whatever fuel, bytes or column index it is given. -/
theorem read_st_loop_done (fuel : Nat) (bytes : List Nat) (hrs hs idx : Nat)
    (h : ¬ hrs < hs) : read_st_loop fuel bytes hrs hs idx = .ok [] := by
  cases fuel <;> simp [read_st_loop, h]

/-- The capacity-free serial-type loop also stops immediately once the
byte count has reached the header length. -/
theorem read_st_loop_nocap_done (fuel : Nat) (bytes : List Nat) (hrs hs : Nat)
    (h : ¬ hrs < hs) : read_st_loop_nocap fuel bytes hrs hs = .ok [] := by
  cases fuel <;> simp [read_st_loop, read_st_loop_nocap, h]

/-- A successful run of the capped serial-type loop is also a successful
run of the capacity-free loop, and whenever at least one iteration was
executed the column index stayed below five throughout, so the final
index `idx + l.length` is at most five. -/
theorem read_st_loop_cap_to_nocap :
    ∀ (fuel : Nat) (bytes : List Nat) (hrs hs idx : Nat) (l : List Nat),
      read_st_loop fuel bytes hrs hs idx = .ok l →
      read_st_loop_nocap fuel bytes hrs hs = .ok l ∧ (hrs < hs → idx + l.length ≤ 5) := by
  intro fuel
  induction fuel with
  | zero =>
    intro bytes hrs hs idx l h
    by_cases hlt : hrs < hs
    · simp [read_st_loop, hlt] at h
    · rw [read_st_loop_done 0 bytes hrs hs idx hlt] at h
      injection h with h
      subst h
      exact ⟨read_st_loop_nocap_done 0 bytes hrs hs hlt, fun hc => absurd hc hlt⟩
  | succ fuel ih =>
    intro bytes hrs hs idx l h
    by_cases hlt : hrs < hs
    · simp only [read_st_loop, if_pos hlt] at h
      by_cases hidx : 5 ≤ idx
      · simp [hidx] at h
      · rw [if_neg hidx] at h
        cases hv : parse_varint bytes with
        | error e => rw [hv] at h; simp at h
        | ok p =>
          obtain ⟨st, n⟩ := p
          rw [hv] at h
          dsimp only at h
          cases hr : read_st_loop fuel (bytes.drop n) (hrs + n) hs (idx + 1) with
          | error e => rw [hr] at h; simp at h
          | ok rest =>
            rw [hr] at h
            injection h with h
            subst h
            obtain ⟨ihn, ihb⟩ := ih (bytes.drop n) (hrs + n) hs (idx + 1) rest hr
            refine ⟨?_, ?_⟩
            · simp only [read_st_loop_nocap, if_pos hlt, hv, ihn]
            · intro _
              by_cases h2 : hrs + n < hs
              · have := ihb h2
                simp only [List.length_cons]
                omega
              · have hrest : rest = [] :=
                  Except.ok.inj
                    (hr.symm.trans
                      (read_st_loop_done fuel (bytes.drop n) (hrs + n) hs (idx + 1) h2))
                subst hrest
                simp only [List.length_cons, List.length_nil]
                omega
    · rw [read_st_loop_done (fuel + 1) bytes hrs hs idx hlt] at h
      injection h with h
      subst h
      exact ⟨read_st_loop_nocap_done (fuel + 1) bytes hrs hs hlt, fun hc => absurd hc hlt⟩

/-- A successful run of the capacity-free serial-type loop whose result
leaves the final column index at most five is reproduced unchanged by the
capped loop. -/
theorem read_st_loop_nocap_to_cap :
    ∀ (fuel : Nat) (bytes : List Nat) (hrs hs idx : Nat) (l : List Nat),
      read_st_loop_nocap fuel bytes hrs hs = .ok l → idx + l.length ≤ 5 →
      read_st_loop fuel bytes hrs hs idx = .ok l := by
  intro fuel
  induction fuel with
  | zero =>
    intro bytes hrs hs idx l h hlen
    by_cases hlt : hrs < hs
    · simp [read_st_loop_nocap, hlt] at h
    · rw [read_st_loop_nocap_done 0 bytes hrs hs hlt] at h
      injection h with h
      subst h
      exact read_st_loop_done 0 bytes hrs hs idx hlt
  | succ fuel ih =>
    intro bytes hrs hs idx l h hlen
    by_cases hlt : hrs < hs
    · simp only [read_st_loop_nocap, if_pos hlt] at h
      cases hv : parse_varint bytes with
      | error e => rw [hv] at h; simp at h
      | ok p =>
        obtain ⟨st, n⟩ := p
        rw [hv] at h
        dsimp only at h
        cases hr : read_st_loop_nocap fuel (bytes.drop n) (hrs + n) hs with
        | error e => rw [hr] at h; simp at h
        | ok rest =>
          rw [hr] at h
          injection h with h
          subst h
          have hidx : ¬ 5 ≤ idx := by
            simp only [List.length_cons] at hlen
            omega
          have hcap := ih (bytes.drop n) (hrs + n) hs (idx + 1) rest hr
            (by simp only [List.length_cons] at hlen; omega)
          simp only [read_st_loop, if_pos hlt, if_neg hidx, hv, hcap]
    · rw [read_st_loop_nocap_done (fuel + 1) bytes hrs hs hlt] at h
      injection h with h
      subst h
      exact read_st_loop_done (fuel + 1) bytes hrs hs idx hlt

/-- C5, amended: the serial-type loop is bounded by the running count of
header bytes consumed (initialised to include the header-length varint's
own size, as `parse_record_serial_types` shows) and stops exactly when
that count reaches the declared header length — so when the count starts
at the header length, zero serial types are read — and the serial types
read are exactly the varints that fit in the remaining header bytes,
PROVIDED at most five fit: the loop succeeds with list `l` precisely when
the capacity-free byte-count loop produces the same `l` and `l` has at
most five entries (the capacity assertion aborts the decode otherwise). -/
theorem c5_serial_loop_bounded_by_byte_count :
    ∀ (bytes : List Nat) (header_read_size header_size : Nat) (l : List Nat),
      (read_serial_types bytes header_read_size header_size 0 = .ok l ↔
        read_serial_types_nocap bytes header_read_size header_size = .ok l ∧ l.length ≤ 5)
      ∧ read_serial_types bytes header_size header_size 0 = .ok [] := by
  intro bytes hrs hs l
  constructor
  · constructor
    · intro h
      obtain ⟨hn, hb⟩ := read_st_loop_cap_to_nocap (hs - hrs) bytes hrs hs 0 l h
      refine ⟨hn, ?_⟩
      by_cases hlt : hrs < hs
      · simpa using hb hlt
      · have hl : l = [] :=
          Except.ok.inj (h.symm.trans (read_st_loop_done (hs - hrs) bytes hrs hs 0 hlt))
        subst hl
        simp
    · rintro ⟨hn, hlen⟩
      exact read_st_loop_nocap_to_cap (hs - hrs) bytes hrs hs 0 l hn (by simpa using hlen)
  · exact read_st_loop_done (hs - hs) bytes hs hs 0 (by omega)

/-- C5, counterexample to the claim as stated: in a record header of
declared length 7 whose header-length varint took 1 byte, six one-byte
serial-type varints fit in the remaining header bytes (the capacity-free
byte-count loop reads exactly [1, 1, 1, 1, 1, 1]), yet the code's loop
does not read six serial types: its capacity assertion aborts on the
sixth, so the number of serial types read does not equal the number of
varints that fit. -/
theorem c5_counterexample_sixth_varint_aborts :
    read_serial_types [1, 1, 1, 1, 1, 1] 1 7 0 = .error .abort
    ∧ read_serial_types_nocap [1, 1, 1, 1, 1, 1] 1 7 = .ok [1, 1, 1, 1, 1, 1] :=
  ⟨rfl, rfl⟩

/-- C6: the claim says record decoding accepts any number of columns with
no 5-column cap. The code stores serial types in the fixed array
`[0; 5]` guarded by `assert!(col_idx < columns_serial_types.len())`: a
record header declaring six serial types ([7, 1, 1, 1, 1, 1, 1]: header
length 7, six one-byte serial types) aborts the process instead of
succeeding, while a five-column header still decodes. -/
theorem c6_six_columns_hit_capacity_assertion :
    parse_record_serial_types [7, 1, 1, 1, 1, 1, 1] = .error .abort
    ∧ parse_record_serial_types [6, 1, 1, 1, 1, 1] = .ok [1, 1, 1, 1, 1] :=
  ⟨rfl, rfl⟩

/-- Reading an in-range index of an `n`-byte window of the file equals
reading the file at the window's offset plus that index. -/
theorem getD_window (file : List Nat) (off n i : Nat) (h1 : i < n) :
    ((file.drop off).take n).getD i 0 = file.getD (off + i) 0 := by
  rw [List.getD_eq_getElem?_getD, List.getD_eq_getElem?_getD, List.getElem?_take, if_pos h1,
    List.getElem?_drop]

/-- C7: the claim says the byte offset of page p is (p − 1) × page_size
computed exactly. The code computes `page_size * (root_page - 1) as u16`,
a 16-bit product: for root_page 17 and page_size 4096 the product wraps
to 0 while the exact offset is 65536 (and the debug profile aborts on the
same overflow instead of wrapping — either way the exact offset is lost;
root pages are furthermore stored as `u8`, one byte). -/
theorem c7_page_offset_wraps_u16 :
    table_page_offset 4096 17 = 0 ∧ (17 - 1) * 4096 = 65536 := by decide

/-- C8: the claim says a table name matching no schema entry yields a
TableNotFound-style error value reported to the caller, never a process
abort. The code's lookup ends in `unwrap_or_else` with an explicit panic:
querying "oranges" against a schema holding only "apples" aborts the
process (no TableNotFound variant exists in the code). -/
theorem c8_table_not_found_aborts :
    find_target_table
      [⟨ObjectType.Table, "apples", "apples", 2, "CREATE TABLE apples (id integer primary key)"⟩]
      "oranges" = .error .abort := rfl

/-- C9, counterexample to the claim as stated: a schema row for "apples"
resolves to root page 17 in a file whose page-size field reads 4096, so
the resolved root page's header starts at byte (17 − 1) × 4096 = 65536 —
past the end of this 18-byte file, where the 16-bit big-endian cell_count
at header offset 3 reads 0. The code's u16 offset product wraps to 0
instead, so CountRows reports 7, the cell-count bytes found at file
offsets 3 and 4 (page 1), not the resolved root page's cell_count. -/
theorem c9_counterexample_wrapped_offset_reads_wrong_page :
    ([apples_row_17].find? (fun r => r.tbl_name == "apples") = some apples_row_17)
    ∧ count_rows file_ps4096 [apples_row_17] "apples" = .ok 7
    ∧ 256 * file_ps4096.getD ((17 - 1) * 4096 + 3) 0
        + file_ps4096.getD ((17 - 1) * 4096 + 4) 0 = 0
    ∧ (7 : Nat) ≠ 0 :=
  ⟨rfl, rfl, rfl, by decide⟩

/-- C9, amended: for a CountRows query whose table name resolves in the
schema, PROVIDED the code's 16-bit offset product does not wrap — that
is, (root_page − 1) × page_size < 65536, with root_page below 256 as its
`u8` type forces — and the two reads stay within the file, the reported
count is exactly the 16-bit big-endian integer at offsets 3 and 4 of the
resolved root page's 8-byte header; the conclusion depends on no other
byte of the page, so no child page is consulted and the page's type byte
is never examined. When the product wraps, the count is read from the
wrapped offset instead (see the counterexample). -/
theorem c9_count_rows_reads_root_page_cell_count
    (file : List Nat) (table_rows : List SchemaTableRow) (target : String)
    (row : SchemaTableRow)
    (hfind : table_rows.find? (fun r => r.tbl_name == target) = some row)
    (hrp1 : 1 ≤ row.root_page) (hrp2 : row.root_page < 256)
    (hlen : 18 ≤ file.length)
    (hnowrap : (row.root_page - 1) * (256 * file.getD 16 0 + file.getD 17 0) < 65536)
    (hpage : (row.root_page - 1) * (256 * file.getD 16 0 + file.getD 17 0) + 8 ≤ file.length) :
    count_rows file table_rows target =
      .ok (256 * file.getD ((row.root_page - 1) * (256 * file.getD 16 0 + file.getD 17 0) + 3) 0
        + file.getD ((row.root_page - 1) * (256 * file.getD 16 0 + file.getD 17 0) + 4) 0) := by
  have hread1 : read_exact file 16 2 = .ok ((file.drop 16).take 2) := by
    unfold read_exact
    rw [if_pos (by omega)]
  have hps : u16_from_be_list ((file.drop 16).take 2)
      = 256 * file.getD 16 0 + file.getD 17 0 := by
    unfold u16_from_be_list
    rw [show ((file.drop 16).take 2).getD 0 0 = file.getD (16 + 0) 0 from
        getD_window file 16 2 0 (by omega),
      show ((file.drop 16).take 2).getD 1 0 = file.getD (16 + 1) 0 from
        getD_window file 16 2 1 (by omega)]
  have hoff : table_page_offset (256 * file.getD 16 0 + file.getD 17 0) row.root_page
      = (row.root_page - 1) * (256 * file.getD 16 0 + file.getD 17 0) := by
    unfold table_page_offset
    rw [show (row.root_page + 255) % 256 = row.root_page - 1 by omega, Nat.mul_comm,
      Nat.mod_eq_of_lt hnowrap]
  have hread2 :
      read_exact file ((row.root_page - 1) * (256 * file.getD 16 0 + file.getD 17 0)) 8
        = .ok ((file.drop
            ((row.root_page - 1) * (256 * file.getD 16 0 + file.getD 17 0))).take 8) := by
    unfold read_exact
    rw [if_pos (by omega)]
  simp only [count_rows, find_target_table, hfind, hread1, hps, hoff, hread2]
  rw [getD_window file _ 8 3 (by omega), getD_window file _ 8 4 (by omega)]

/-- C9, witness: a concrete 18-byte file whose page size field reads 18,
with one schema row for table "apples" rooted at page 1, and cell-count
bytes 0 and 4 at header offsets 3 and 4: CountRows reports 4. -/
theorem c9_count_rows_witness :
    count_rows [2, 0, 0, 0, 4, 0, 0, 0, 0, 0, 0, 0, 0, 0, 0, 0, 0, 18]
      [⟨ObjectType.Table, "apples", "apples", 1,
        "CREATE TABLE apples (id integer primary key)"⟩]
      "apples" = .ok 4 :=
  c9_count_rows_reads_root_page_cell_count
    [2, 0, 0, 0, 4, 0, 0, 0, 0, 0, 0, 0, 0, 0, 0, 0, 0, 18]
    [⟨ObjectType.Table, "apples", "apples", 1,
      "CREATE TABLE apples (id integer primary key)"⟩]
    "apples"
    ⟨ObjectType.Table, "apples", "apples", 1,
      "CREATE TABLE apples (id integer primary key)"⟩
    (by decide) (by decide) (by decide) (by decide) (by decide) (by decide)

/-- C10: the `.tables` command builds its output by slicing the name list
up to `len - 1` and indexing at `len - 1`; on an empty schema (zero rows,
hence zero names) that index computation underflows and the process
aborts instead of printing an empty line, while a non-empty name list
still joins with single spaces. -/
theorem c10_empty_schema_tables_aborts :
    tables_output [] = .error .abort
    ∧ tables_output ["apples", "oranges"] = .ok "apples oranges" :=
  ⟨rfl, rfl⟩

end SQLiteRs
